import Mathlib

/-
Verification of the data/store/persistence core of the omnana/todo
application (a browser-local to-do list).

The TypeScript sources are shallowly embedded as executable Lean
definitions:

- JSON values (the wire format of localStorage blobs and import payloads)
  are the inductive type Json below; JavaScript truthiness and the
  typeof-object test are modelled explicitly.
- A stored localStorage slot is a Cell: the key can be absent, hold a
  string that JSON.parse rejects (corrupt), or hold a parsed Json value.
- Strings use the Lean String type; where the code calls trim,
  toLowerCase or includes we operate on the underlying character list,
  because those operations must evaluate inside proofs.
- Date strings (dueDate) are modelled by their parsed timestamp
  (the value of new Date(s).getTime() for a valid date string), an
  integer, so that the chronological comparisons of
  DataTransformer.sortByDueDate are the integer order.  The clock
  (Date.now() and new Date().toISOString()) is passed in explicitly as
  nowId / nowIso arguments wherever the code reads it.
- JavaScript number arithmetic in the statistics layer is modelled
  exactly (Math.round of an exact rational value).
- Functions that can throw are modelled with Except String.
-/

namespace Todo

/-- Json is the model of a decoded JSON value (the possible results of
JSON.parse): null, booleans, numbers, strings, arrays and objects. -/
inductive Json where
  | null
  | bool (b : Bool)
  | num (n : Int)
  | str (s : String)
  | arr (elems : List Json)
  | obj (fields : List (String × Json))

/-- jsFalsy v is true exactly when the JavaScript value modelled by v is
falsy: null, false, 0, and the empty string.  Arrays and objects are
always truthy. -/
def jsFalsy : Json → Bool
  | .null => true
  | .bool b => !b
  | .num n => n == 0
  | .str s => s == ""
  | .arr _ => false
  | .obj _ => false

/-- Json.isObjectType v models the JavaScript test typeof v === "object":
true for null, arrays and plain objects, false for primitives. -/
def Json.isObjectType : Json → Bool
  | .null => true
  | .arr _ => true
  | .obj _ => true
  | _ => false

/-- Json.isArr models Array.isArray. -/
def Json.isArr : Json → Bool
  | .arr _ => true
  | _ => false

/-- jsGetField v k models reading property k of value v: a lookup in an
object, and undefined (none) on every other value.  The code below only
reads properties of values that were already checked to be truthy
objects, so the throwing case (property access on null or undefined) is
handled separately where it can occur. -/
def jsGetField (v : Json) (k : String) : Option Json :=
  match v with
  | .obj fields => fields.lookup k
  | _ => none

/-- jsOr v fallback models the JavaScript expression v || fallback for a
possibly-undefined v (none is undefined). -/
def jsOr (v : Option Json) (fallback : Json) : Json :=
  match v with
  | none => fallback
  | some x => if jsFalsy x then fallback else x

/-- jsOrStr models s || fallback on strings, where the empty string is
the only falsy string. -/
def jsOrStr (v : Option String) (fallback : String) : String :=
  match v with
  | none => fallback
  | some s => if s = "" then fallback else s

/-- isWsChar models the whitespace class removed by String.prototype.trim
(restricted to the common ASCII whitespace characters). -/
def isWsChar (c : Char) : Bool :=
  c = ' ' || c = '\t' || c = '\n' || c = '\r'

/-- trimChars models String.prototype.trim on the character list. -/
def trimChars (l : List Char) : List Char :=
  (((l.dropWhile isWsChar).reverse).dropWhile isWsChar).reverse

/-- jsTrim models String.prototype.trim. -/
def jsTrim (s : String) : String := ⟨trimChars s.data⟩

/-- jsLower models String.prototype.toLowerCase as a character list. -/
def jsLower (s : String) : List Char := s.data.map Char.toLower

/-- jsIncludes s sub models s.includes(sub) on character lists. -/
def jsIncludes (s sub : List Char) : Bool :=
  s.tails.any (fun t => sub.isPrefixOf t)

/-- Priority is the union type "low" | "medium" | "high" from
src/types/index.ts. -/
inductive Priority where
  | low
  | medium
  | high
deriving DecidableEq, Repr

/-- SubTask is a checklist item nested under a task (spec section 3; the
committed src/types/index.ts predates the subtasks feature, but the UI
component imports SubTask from the types module and stores subtasks on
tasks, so the record shape is taken from the spec: id, title,
completed). -/
structure SubTask where
  id : String
  title : String
  completed : Bool
deriving DecidableEq, Repr

/-- Task is the in-memory task record (src/types/index.ts plus the
subtasks field of spec section 3 used by the UI).  dueDate is modelled
by the parsed timestamp of the stored date string (none when the field
is absent); createdAt is kept as the opaque ISO string. -/
structure Task where
  id : String
  title : String
  description : Option String
  category : String
  priority : Priority
  dueDate : Option Int
  completed : Bool
  createdAt : String
  subtasks : List SubTask
deriving DecidableEq, Repr

/-- Category is the category record from src/types/index.ts. -/
structure Category where
  id : String
  name : String
  color : String
deriving DecidableEq, Repr

/-- TaskStats is the statistics record from src/types/index.ts. -/
structure TaskStats where
  total : Nat
  pending : Nat
  completed : Nat
  completionRate : Nat
deriving DecidableEq, Repr

namespace DataValidator

/-- VTask is the record produced by DataValidator.validateTask in
src/utils/storageUtils.ts: every field is present and typed; dueDate
stays the raw (unparsed) string because validateTask only checks that it
is a nonempty string. -/
structure VTask where
  id : String
  title : String
  description : String
  category : String
  priority : Priority
  dueDate : Option String
  completed : Bool
  createdAt : String
deriving DecidableEq, Repr

/-- validateTask models DataValidator.validateTask
(src/utils/storageUtils.ts): it returns null (none) for values that are
not object-shaped, and otherwise repairs every field, substituting the
fresh id nowId and the current timestamp nowIso where the code calls
Date.now() and new Date().toISOString(). -/
def validateTask (nowId nowIso : String) (task : Json) : Option VTask :=
  if jsFalsy task || !task.isObjectType then none
  else some {
    id := match jsGetField task "id" with
      | some (.str s) => if s.length > 0 then s else nowId
      | _ => nowId
    title := match jsGetField task "title" with
      | some (.str s) =>
          if (trimChars s.data).length > 0 then jsTrim s else "未命名任务"
      | _ => "未命名任务"
    description := match jsGetField task "description" with
      | some (.str s) => jsTrim s
      | _ => ""
    category := match jsGetField task "category" with
      | some (.str s) =>
          if (trimChars s.data).length > 0 then jsTrim s else "其他"
      | _ => "其他"
    priority := match jsGetField task "priority" with
      | some (.str "low") => .low
      | some (.str "medium") => .medium
      | some (.str "high") => .high
      | _ => .medium
    dueDate := match jsGetField task "dueDate" with
      | some (.str s) => if s = "" then none else some s
      | _ => none
    completed := match jsGetField task "completed" with
      | none => false
      | some v => !jsFalsy v
    createdAt := match jsGetField task "createdAt" with
      | some (.str s) => if s = "" then nowIso else s
      | _ => nowIso }

end DataValidator

/-- SortOrder is the "asc" | "desc" direction parameter of the sorting
helpers in src/utils/storageUtils.ts. -/
inductive SortOrder where
  | asc
  | desc
deriving DecidableEq, Repr

namespace DataTransformer

/-- cmpDueDate models the comparator inside DataTransformer.sortByDueDate:
both dates absent compare equal, an absent date sorts after a present
one in either direction, and two present dates compare by their
timestamps, negated for descending order. -/
def cmpDueDate (order : SortOrder) (a b : Task) : Int :=
  match a.dueDate, b.dueDate with
  | none, none => 0
  | none, some _ => 1
  | some _, none => -1
  | some x, some y =>
      let diff := x - y
      if order = .desc then -diff else diff

/-- dueLe order is the non-strict relation induced by the comparator;
Array.prototype.sort with a comparator produces a list sorted with
respect to this relation. -/
def dueLe (order : SortOrder) (a b : Task) : Prop :=
  cmpDueDate order a b ≤ 0

instance (order : SortOrder) : DecidableRel (dueLe order) :=
  fun a b => inferInstanceAs (Decidable (cmpDueDate order a b ≤ 0))

/-- sortByDueDate models DataTransformer.sortByDueDate: the JavaScript
engine sort with a comparator is a stable comparator sort, modelled by
insertion sort with the induced relation. -/
def sortByDueDate (tasks : List Task) (order : SortOrder) : List Task :=
  List.insertionSort (fun a b => dueLe order a b) tasks

end DataTransformer

namespace StorageStats

/-- calculateTaskStats models StorageStats.calculateTaskStats
(src/utils/storageUtils.ts) restricted to the four aggregate fields of
the TaskStats record (the dictionary-valued byCategory/byPriority
groupings and the clock-dependent overdue/today counts are not claimed
and are omitted).  Math.round((completed / total) * 100) on the exact
rational value is floor(100 * completed / total + 1/2), which on
naturals is (200 * completed + total) / (2 * total). -/
def calculateTaskStats (tasks : List Task) : TaskStats :=
  let total := tasks.length
  let completed := (tasks.filter (fun t => t.completed)).length
  let pending := total - completed
  let completionRate :=
    if total > 0 then (200 * completed + total) / (2 * total) else 0
  { total := total, pending := pending, completed := completed,
    completionRate := completionRate }

end StorageStats

namespace LocalStorageService

/-- Cell models the state of one localStorage key as seen by getItem
(src/services/storage.ts): the key can be absent (getItem returns null
or the stored string is empty, both falsy), hold a string rejected by
JSON.parse (corrupt, the catch branch), or hold a string that parses to
a Json value. -/
inductive Cell where
  | absent
  | corrupt
  | value (v : Json)

/-- validateData models LocalStorageService.validateData specialised to
the array-valued keys (tasks, categories): falsy or non-object data is
replaced by the default, and an object that is not an array is replaced
by the default as well; a parsed array is returned untouched. -/
def validateData (data : Json) (defaultValue : List Json) : List Json :=
  if jsFalsy data || !data.isObjectType then defaultValue
  else
    match data with
    | .arr elems => elems
    | _ => defaultValue

/-- getItem models LocalStorageService.getItem for an array-valued key:
an absent key and unparsable JSON degrade to the default, a parsed value
goes through validateData. -/
def getItem (cell : Cell) (defaultValue : List Json) : List Json :=
  match cell with
  | .absent => defaultValue
  | .corrupt => defaultValue
  | .value v => validateData v defaultValue

/-- DEFAULT_CATEGORIES is the fixed built-in category list of
LocalStorageService. -/
def DEFAULT_CATEGORIES : List Category :=
  [ { id := "1", name := "工作", color := "#3B82F6" },
    { id := "2", name := "学习", color := "#10B981" },
    { id := "3", name := "生活", color := "#F59E0B" },
    { id := "4", name := "购物", color := "#EF4444" },
    { id := "5", name := "其他", color := "#6B7280" } ]

/-- categoryToJson is the JSON encoding of a category record. -/
def categoryToJson (c : Category) : Json :=
  .obj [("id", .str c.id), ("name", .str c.name), ("color", .str c.color)]

/-- DEFAULT_CATEGORIES_JSON is the built-in category list in its stored
JSON form, the fallback value of the categories key. -/
def DEFAULT_CATEGORIES_JSON : List Json :=
  DEFAULT_CATEGORIES.map categoryToJson

/-- getTasksJson models LocalStorageService.getTasks at the JSON level:
getItem on the tasks key with the empty-array default. -/
def getTasksJson (cell : Cell) : List Json := getItem cell []

/-- getCategoriesJson models LocalStorageService.getCategories:
getItem on the categories key with the built-in default list. -/
def getCategoriesJson (cell : Cell) : List Json :=
  getItem cell DEFAULT_CATEGORIES_JSON

/-- validatedTask models one step of the validation map inside
LocalStorageService.saveTasks as invoked by the task store on typed
in-memory tasks: each || falls back only on a falsy (empty-string or
absent) field, completed is passed through Boolean, and the produced
record has no subtasks property at all (modelled as the empty list,
which is what reading the absent field back yields). -/
def validatedTask (nowId nowIso : String) (task : Task) : Task :=
  { id := if task.id = "" then nowId else task.id
    title := if task.title = "" then "未命名任务" else task.title
    description := some (jsOrStr task.description "")
    category := if task.category = "" then "其他" else task.category
    priority := task.priority
    dueDate := task.dueDate
    completed := task.completed
    createdAt := if task.createdAt = "" then nowIso else task.createdAt
    subtasks := [] }

/-- saveTasks models LocalStorageService.saveTasks on typed in-memory
tasks: the stored list is the validation map over the input; the
subsequent JSON.stringify / localStorage.setItem round trip is the
identity on this list (getTasks returns a parsed array untouched). -/
def saveTasks (nowId nowIso : String) (tasks : List Task) : List Task :=
  tasks.map (validatedTask nowId nowIso)

/-- jsReadProp models property access task.k inside the saveTasks
validation map when saveTasks is invoked by importData on raw decoded
payload elements: reading a property of null throws a TypeError, reading
a missing property of any other value yields undefined (none). -/
def jsReadProp (e : Json) (k : String) : Except String (Option Json) :=
  match e with
  | .null => .error "TypeError: cannot read properties of null"
  | .obj fields => .ok (fields.lookup k)
  | _ => .ok none

/-- validatedTaskJson models one step of the saveTasks validation map on
a raw JSON payload element: each field falls back on a falsy value, the
dueDate property is dropped from the stored object when falsy (that is
what JSON.stringify does to an undefined property), completed goes
through Boolean, and no subtasks property is produced. -/
def validatedTaskJson (nowId nowIso : String) (task : Json) :
    Except String Json := do
  let id ← jsReadProp task "id"
  let title ← jsReadProp task "title"
  let description ← jsReadProp task "description"
  let category ← jsReadProp task "category"
  let priority ← jsReadProp task "priority"
  let dueDate ← jsReadProp task "dueDate"
  let completed ← jsReadProp task "completed"
  let createdAt ← jsReadProp task "createdAt"
  let dueDateKept :=
    match dueDate with
    | none => none
    | some x => if jsFalsy x then none else some x
  return .obj
    ([("id", jsOr id (.str nowId)),
      ("title", jsOr title (.str "未命名任务")),
      ("description", jsOr description (.str "")),
      ("category", jsOr category (.str "其他")),
      ("priority", jsOr priority (.str "medium"))] ++
     (match dueDateKept with
      | some v => [("dueDate", v)]
      | none => []) ++
     [("completed", .bool (match completed with
        | none => false
        | some v => !jsFalsy v)),
      ("createdAt", jsOr createdAt (.str nowIso))])

/-- saveTasksJson is LocalStorageService.saveTasks on a raw payload. -/
def saveTasksJson (nowId nowIso : String) (tasks : List Json) :
    Except String (List Json) :=
  tasks.mapM (validatedTaskJson nowId nowIso)

/-- validatedCategoryJson models one step of the saveCategories
validation map on a raw JSON payload element. -/
def validatedCategoryJson (nowId : String) (category : Json) :
    Except String Json := do
  let id ← jsReadProp category "id"
  let name ← jsReadProp category "name"
  let color ← jsReadProp category "color"
  return .obj
    [("id", jsOr id (.str nowId)),
     ("name", jsOr name (.str "未命名分类")),
     ("color", jsOr color (.str "#6B7280"))]

/-- saveCategoriesJson is LocalStorageService.saveCategories on a raw
payload. -/
def saveCategoriesJson (nowId : String) (categories : List Json) :
    Except String (List Json) :=
  categories.mapM (validatedCategoryJson nowId)

/-- Storage models the persisted state: one cell for each of the four
fixed keys of LocalStorageService. -/
structure Storage where
  tasks : Cell
  categories : Cell
  settings : Cell
  backup : Cell

/-- exportData models LocalStorageService.exportData: the full snapshot
bundle with the current collections, the export time and the version. -/
def exportData (nowIso : String) (st : Storage) : Json :=
  .obj [("tasks", .arr (getTasksJson st.tasks)),
        ("categories", .arr (getCategoriesJson st.categories)),
        ("exportTime", .str nowIso),
        ("version", .str "1.0.0")]

/-- createBackup models LocalStorageService.createBackup: the export
bundle is written to the backup key. -/
def createBackup (nowIso : String) (st : Storage) : Storage :=
  { st with backup := .value (exportData nowIso st) }

/-- importData models LocalStorageService.importData: reject a falsy or
non-object payload, destructure tasks and categories with empty-array
defaults for absent properties, reject either when it is present but not
an array, and only then write the backup and overwrite both
collections. -/
def importData (nowId nowIso : String) (st : Storage) (data : Json) :
    Except String Storage :=
  if jsFalsy data || !data.isObjectType then
    .error "Invalid import data format"
  else
    let tasks := match jsGetField data "tasks" with
      | none => Json.arr []
      | some v => v
    let categories := match jsGetField data "categories" with
      | none => Json.arr []
      | some v => v
    match tasks with
    | .arr taskElems =>
      match categories with
      | .arr catElems => do
          let backed := createBackup nowIso st
          let newTasks ← saveTasksJson nowId nowIso taskElems
          let newCategories ← saveCategoriesJson nowId catElems
          return { backed with
                     tasks := .value (.arr newTasks),
                     categories := .value (.arr newCategories) }
      | _ => .error "Categories must be an array"
    | _ => .error "Tasks must be an array"

/-- importDataRun is the state the caller observes after importData: the
new storage on success, the unchanged storage when the call threw. -/
def importDataRun (nowId nowIso : String) (st : Storage) (data : Json) :
    Storage :=
  match importData nowId nowIso st data with
  | .ok st2 => st2
  | .error _ => st

end LocalStorageService

namespace TaskStore

/-- TaskData is the argument of addTask: Omit of Task without id and
createdAt (src/stores/taskStore.ts). -/
structure TaskData where
  title : String
  description : Option String
  category : String
  priority : Priority
  dueDate : Option Int
  completed : Bool
  subtasks : List SubTask
deriving DecidableEq, Repr

/-- TaskUpdate models the JavaScript object spread with a possibly
missing field for each task field (the updates argument of updateTask,
typed in the source as a subset of the Task fields): none means the
property is absent and the old value is kept. -/
structure TaskUpdate where
  id : Option String := none
  title : Option String := none
  description : Option (Option String) := none
  category : Option String := none
  priority : Option Priority := none
  dueDate : Option (Option Int) := none
  completed : Option Bool := none
  createdAt : Option String := none
  subtasks : Option (List SubTask) := none
deriving DecidableEq, Repr

/-- applyUpdate models the object spread expression with task fields on
the left and the update fields on the right: every property present in
the update wins. -/
def applyUpdate (u : TaskUpdate) (t : Task) : Task :=
  { id := u.id.getD t.id
    title := u.title.getD t.title
    description := u.description.getD t.description
    category := u.category.getD t.category
    priority := u.priority.getD t.priority
    dueDate := u.dueDate.getD t.dueDate
    completed := u.completed.getD t.completed
    createdAt := u.createdAt.getD t.createdAt
    subtasks := u.subtasks.getD t.subtasks }

/-- addTask models taskStore.addTask: spread the data, assign a fresh
Date.now id and a createdAt timestamp, append at the end. -/
def addTask (newId nowIso : String) (data : TaskData) (tasks : List Task) :
    List Task :=
  tasks ++ [{ id := newId
              title := data.title
              description := data.description
              category := data.category
              priority := data.priority
              dueDate := data.dueDate
              completed := data.completed
              createdAt := nowIso
              subtasks := data.subtasks }]

/-- updateTask models taskStore.updateTask: map over the collection and
merge the updates into the record whose id matches. -/
def updateTask (id : String) (u : TaskUpdate) (tasks : List Task) :
    List Task :=
  tasks.map (fun t => if t.id = id then applyUpdate u t else t)

/-- deleteTask models taskStore.deleteTask: keep the records whose id
differs. -/
def deleteTask (id : String) (tasks : List Task) : List Task :=
  tasks.filter (fun t => t.id != id)

/-- toggleTask models taskStore.toggleTask: find the record, and when it
exists delegate to updateTask with the flipped completed flag; silently
do nothing otherwise. -/
def toggleTask (id : String) (tasks : List Task) : List Task :=
  match tasks.find? (fun t => t.id == id) with
  | some t => updateTask id { completed := some (!t.completed) } tasks
  | none => tasks

/-- toggleAllTasks models taskStore.toggleAllTasks. -/
def toggleAllTasks (completed : Bool) (tasks : List Task) : List Task :=
  tasks.map (fun t => { t with completed := completed })

/-- clearCompleted models taskStore.clearCompleted. -/
def clearCompleted (tasks : List Task) : List Task :=
  tasks.filter (fun t => !t.completed)

/-- deleteCompleted models taskStore.deleteCompleted (textually the same
body as clearCompleted). -/
def deleteCompleted (tasks : List Task) : List Task :=
  tasks.filter (fun t => !t.completed)

/-- bulkUpdateTasks models taskStore.bulkUpdateTasks. -/
def bulkUpdateTasks (ids : List String) (u : TaskUpdate)
    (tasks : List Task) : List Task :=
  tasks.map (fun t => if ids.contains t.id then applyUpdate u t else t)

/-- bulkDeleteTasks models taskStore.bulkDeleteTasks. -/
def bulkDeleteTasks (ids : List String) (tasks : List Task) : List Task :=
  tasks.filter (fun t => !ids.contains t.id)

/-- FilterStatus is the "all" | "completed" | "todo" status filter. -/
inductive FilterStatus where
  | all
  | completed
  | todo
deriving DecidableEq, Repr

/-- matchesFilter is the conjunction predicate inside
taskStore.filteredTasks: an empty search query matches everything,
otherwise the lowercased query must occur in the title or in the
(present) description; no selected category (or the falsy empty string)
matches everything, otherwise the category must match exactly; and the
status clause checks the completed flag. -/
def matchesFilter (searchQuery : String) (selectedCategory : Option String)
    (filterStatus : FilterStatus) (task : Task) : Bool :=
  let matchesSearch :=
    searchQuery = "" ||
    jsIncludes (jsLower task.title) (jsLower searchQuery) ||
    (match task.description with
     | some d => jsIncludes (jsLower d) (jsLower searchQuery)
     | none => false)
  let matchesCategory :=
    match selectedCategory with
    | none => true
    | some c => c = "" || task.category = c
  let matchesStatus :=
    match filterStatus with
    | .all => true
    | .completed => task.completed
    | .todo => !task.completed
  matchesSearch && matchesCategory && matchesStatus

/-- filterTasks is the filtering stage of taskStore.filteredTasks. -/
def filterTasks (searchQuery : String) (selectedCategory : Option String)
    (filterStatus : FilterStatus) (tasks : List Task) : List Task :=
  tasks.filter (matchesFilter searchQuery selectedCategory filterStatus)

end TaskStore

namespace CategoryStore

/-- CategoryData is the argument of addCategory: Omit of Category
without id (src/stores/categoryStore.ts). -/
structure CategoryData where
  name : String
  color : String
deriving DecidableEq, Repr

/-- CategoryUpdate models the partial update argument of
updateCategory. -/
structure CategoryUpdate where
  id : Option String := none
  name : Option String := none
  color : Option String := none
deriving DecidableEq, Repr

/-- applyCategoryUpdate models the object spread merging the update into
a category record. -/
def applyCategoryUpdate (u : CategoryUpdate) (c : Category) : Category :=
  { id := u.id.getD c.id
    name := u.name.getD c.name
    color := u.color.getD c.color }

/-- addCategory models categoryStore.addCategory: spread the data,
assign a fresh Date.now id, append at the end. -/
def addCategory (newId : String) (data : CategoryData)
    (categories : List Category) : List Category :=
  categories ++ [{ id := newId, name := data.name, color := data.color }]

/-- updateCategory models categoryStore.updateCategory. -/
def updateCategory (id : String) (u : CategoryUpdate)
    (categories : List Category) : List Category :=
  categories.map (fun c => if c.id = id then applyCategoryUpdate u c else c)

/-- deleteCategory models categoryStore.deleteCategory: keep the
categories whose id differs; the task collection is not touched. -/
def deleteCategory (id : String) (categories : List Category) :
    List Category :=
  categories.filter (fun c => c.id != id)

/-- bulkAddCategories models categoryStore.bulkAddCategories: each datum
receives its own generated id (Date.now plus a random suffix in the
source, passed here explicitly) and the batch is appended. -/
def bulkAddCategories (news : List (String × CategoryData))
    (categories : List Category) : List Category :=
  categories ++ news.map (fun p =>
    { id := p.1, name := p.2.name, color := p.2.color })

/-- bulkUpdateCategories models categoryStore.bulkUpdateCategories. -/
def bulkUpdateCategories (ids : List String) (u : CategoryUpdate)
    (categories : List Category) : List Category :=
  categories.map (fun c =>
    if ids.contains c.id then applyCategoryUpdate u c else c)

/-- bulkDeleteCategories models categoryStore.bulkDeleteCategories. -/
def bulkDeleteCategories (ids : List String)
    (categories : List Category) : List Category :=
  categories.filter (fun c => !ids.contains c.id)

/-- getCategoriesWithTaskCount models
categoryStore.getCategoriesWithTaskCount: each category is paired with
the number of tasks whose category string equals its name. -/
def getCategoriesWithTaskCount (categories : List Category)
    (tasks : List Task) : List (Category × Nat) :=
  categories.map (fun c =>
    (c, (tasks.filter (fun t => t.category == c.name)).length))

end CategoryStore

/-- StoreState is the pair of canonical in-memory collections owned by
the two zustand stores. -/
structure StoreState where
  tasks : List Task
  categories : List Category
deriving DecidableEq, Repr

/-- initialState is the empty/default state both stores start from
before any load: an empty task list and an empty category list. -/
def initialState : StoreState := { tasks := [], categories := [] }

/-- Op enumerates the mutating store operations, with every id the
source draws from Date.now (or Date.now plus a random suffix) passed
explicitly, since the clock is an input of the program. -/
inductive Op where
  | addTask (newId nowIso : String) (data : TaskStore.TaskData)
  | updateTask (id : String) (u : TaskStore.TaskUpdate)
  | deleteTask (id : String)
  | toggleTask (id : String)
  | toggleAllTasks (completed : Bool)
  | clearCompleted
  | deleteCompleted
  | bulkUpdateTasks (ids : List String) (u : TaskStore.TaskUpdate)
  | bulkDeleteTasks (ids : List String)
  | addCategory (newId : String) (data : CategoryStore.CategoryData)
  | updateCategory (id : String) (u : CategoryStore.CategoryUpdate)
  | deleteCategory (id : String)
  | bulkAddCategories (news : List (String × CategoryStore.CategoryData))
  | bulkUpdateCategories (ids : List String)
      (u : CategoryStore.CategoryUpdate)
  | bulkDeleteCategories (ids : List String)
deriving DecidableEq, Repr

/-- applyOp runs one store operation on the canonical state; task
operations leave the categories untouched and category operations leave
the tasks untouched, exactly as in the two stores. -/
def applyOp (s : StoreState) : Op → StoreState
  | .addTask newId nowIso data =>
      { s with tasks := TaskStore.addTask newId nowIso data s.tasks }
  | .updateTask id u =>
      { s with tasks := TaskStore.updateTask id u s.tasks }
  | .deleteTask id =>
      { s with tasks := TaskStore.deleteTask id s.tasks }
  | .toggleTask id =>
      { s with tasks := TaskStore.toggleTask id s.tasks }
  | .toggleAllTasks completed =>
      { s with tasks := TaskStore.toggleAllTasks completed s.tasks }
  | .clearCompleted =>
      { s with tasks := TaskStore.clearCompleted s.tasks }
  | .deleteCompleted =>
      { s with tasks := TaskStore.deleteCompleted s.tasks }
  | .bulkUpdateTasks ids u =>
      { s with tasks := TaskStore.bulkUpdateTasks ids u s.tasks }
  | .bulkDeleteTasks ids =>
      { s with tasks := TaskStore.bulkDeleteTasks ids s.tasks }
  | .addCategory newId data =>
      { s with categories := CategoryStore.addCategory newId data s.categories }
  | .updateCategory id u =>
      { s with categories := CategoryStore.updateCategory id u s.categories }
  | .deleteCategory id =>
      { s with categories := CategoryStore.deleteCategory id s.categories }
  | .bulkAddCategories news =>
      { s with categories := CategoryStore.bulkAddCategories news s.categories }
  | .bulkUpdateCategories ids u =>
      { s with categories :=
          CategoryStore.bulkUpdateCategories ids u s.categories }
  | .bulkDeleteCategories ids =>
      { s with categories :=
          CategoryStore.bulkDeleteCategories ids s.categories }

/-- runOps runs a sequence of store operations from a state. -/
def runOps (s : StoreState) : List Op → StoreState
  | [] => s
  | op :: rest => runOps (applyOp s op) rest

/-- taskIds is the list of task ids of a state. -/
def taskIds (s : StoreState) : List String := s.tasks.map Task.id

/-- categoryIds is the list of category ids of a state. -/
def categoryIds (s : StoreState) : List String := s.categories.map Category.id

end Todo

namespace Todo

/-- idsNodup is the uniqueness invariant of spec section 3: task ids are
pairwise distinct and category ids are pairwise distinct. -/
def idsNodup (s : StoreState) : Prop :=
  (taskIds s).Nodup ∧ (categoryIds s).Nodup

/-- opOk states the side conditions under which one operation preserves
id uniqueness: a generated id must be fresh (the source draws it from
Date.now, so this is the assumption that the clock does not collide),
partial updates must not carry an id property, and a bulk add must
generate pairwise distinct fresh ids. -/
def opOk (s : StoreState) : Op → Bool
  | .addTask newId _ _ => !((taskIds s).contains newId)
  | .updateTask _ u => u.id.isNone
  | .bulkUpdateTasks _ u => u.id.isNone
  | .addCategory newId _ => !((categoryIds s).contains newId)
  | .updateCategory _ u => u.id.isNone
  | .bulkUpdateCategories _ u => u.id.isNone
  | .bulkAddCategories news =>
      decide ((news.map Prod.fst).Nodup) &&
      news.all (fun p => !((categoryIds s).contains p.1))
  | _ => true

/-- okRun states that every operation of a run satisfies its side
condition in the state where it executes. -/
def okRun (s : StoreState) : List Op → Bool
  | [] => true
  | op :: rest => opOk s op && okRun (applyOp s op) rest

/-- sampleSubTask is a concrete subtask used by witness statements. -/
def sampleSubTask : SubTask :=
  { id := "s1", title := "去超市", completed := false }

/-- sampleTask is a concrete well-formed task carrying one subtask, used
by witness statements. -/
def sampleTask : Task :=
  { id := "1"
    title := "买牛奶"
    description := some "周末前"
    category := "购物"
    priority := .low
    dueDate := some 1704067200000
    completed := false
    createdAt := "2024-01-01T00:00:00.000Z"
    subtasks := [sampleSubTask] }

/-- sampleTaskData is a concrete addTask argument used by witness and
counterexample statements. -/
def sampleTaskData : TaskStore.TaskData :=
  { title := "买牛奶"
    description := none
    category := "购物"
    priority := .low
    dueDate := none
    completed := false
    subtasks := [] }

/-- sampleStorage is a concrete persisted state used by witness
statements: a stored task list with one element and an empty stored
category list. -/
def sampleStorage : LocalStorageService.Storage :=
  { tasks := .value (.arr [.obj [("id", .str "1"), ("title", .str "旧任务")]])
    categories := .value (.arr [])
    settings := .absent
    backup := .absent }

/-- samplePayload is the import payload of the spec scenario: tasks is
the string "not-an-array" and categories is an empty array. -/
def samplePayload : Json :=
  .obj [("tasks", .str "not-an-array"), ("categories", .arr [])]

/-- sampleRaw is a concrete malformed object-shaped raw task record used
by witness statements: blank title, unknown priority, numeric dueDate,
truthy numeric completed, and no id or createdAt. -/
def sampleRaw : Json :=
  .obj [("title", .str "   "), ("priority", .str "urgent"),
        ("dueDate", .num 5), ("completed", .num 2)]

end Todo

namespace Todo

/-- C9: filtering is idempotent — applying the conjunction filter
predicate (search AND category AND status) of taskStore.filteredTasks to
a list already filtered with the same predicate yields the same list. -/
theorem filterTasks_idempotent (searchQuery : String)
    (selectedCategory : Option String)
    (filterStatus : TaskStore.FilterStatus) (tasks : List Task) :
    TaskStore.filterTasks searchQuery selectedCategory filterStatus
      (TaskStore.filterTasks searchQuery selectedCategory filterStatus tasks)
    = TaskStore.filterTasks searchQuery selectedCategory filterStatus tasks := by
  simp [TaskStore.filterTasks, List.filter_filter]

/-- C10: the read path performs no per-record validation — a stored
value that parses as a JSON array is returned by getTasks element for
element unchanged, however malformed the elements are, while a missing
key, unparsable JSON, or a non-array parsed value degrades to the
empty-array default (and getCategories degrades to the five built-in
default categories). -/
theorem getTasks_no_record_validation (xs : List Json) (v : Json)
    (h : v.isArr = false) :
    LocalStorageService.getTasksJson (.value (.arr xs)) = xs ∧
    LocalStorageService.getCategoriesJson (.value (.arr xs)) = xs ∧
    LocalStorageService.getTasksJson .absent = [] ∧
    LocalStorageService.getTasksJson .corrupt = [] ∧
    LocalStorageService.getTasksJson (.value v) = [] ∧
    LocalStorageService.getCategoriesJson .absent
      = LocalStorageService.DEFAULT_CATEGORIES_JSON ∧
    LocalStorageService.getCategoriesJson .corrupt
      = LocalStorageService.DEFAULT_CATEGORIES_JSON ∧
    LocalStorageService.getCategoriesJson (.value v)
      = LocalStorageService.DEFAULT_CATEGORIES_JSON := by
  refine ⟨rfl, rfl, rfl, rfl, ?_, rfl, rfl, ?_⟩ <;>
    cases v <;>
      simp_all [LocalStorageService.getTasksJson,
        LocalStorageService.getCategoriesJson, LocalStorageService.getItem,
        LocalStorageService.validateData, jsFalsy, Json.isObjectType,
        Json.isArr]

/-- Witness for C10 at a stored array with malformed elements and a
stored non-array value. -/
theorem getTasks_no_record_validation_witness :
    Json.isArr (.str "oops") = false ∧
    (LocalStorageService.getTasksJson
        (.value (.arr [.str "garbage", .num 0])) = [.str "garbage", .num 0] ∧
      LocalStorageService.getCategoriesJson
        (.value (.arr [.str "garbage", .num 0])) = [.str "garbage", .num 0] ∧
      LocalStorageService.getTasksJson .absent = [] ∧
      LocalStorageService.getTasksJson .corrupt = [] ∧
      LocalStorageService.getTasksJson (.value (.str "oops")) = [] ∧
      LocalStorageService.getCategoriesJson .absent
        = LocalStorageService.DEFAULT_CATEGORIES_JSON ∧
      LocalStorageService.getCategoriesJson .corrupt
        = LocalStorageService.DEFAULT_CATEGORIES_JSON ∧
      LocalStorageService.getCategoriesJson (.value (.str "oops"))
        = LocalStorageService.DEFAULT_CATEGORIES_JSON) :=
  ⟨rfl, getTasks_no_record_validation [.str "garbage", .num 0] (.str "oops") rfl⟩

end Todo

namespace Todo

/-- Helper: a conditional map whose condition matches no element of the
list is the identity. -/
theorem map_ite_eq_self_of_no_match {f : Task → Task} (id : String)
    (tasks : List Task) (h : ∀ t ∈ tasks, t.id ≠ id) :
    tasks.map (fun t => if t.id = id then f t else t) = tasks := by
  induction tasks with
  | nil => rfl
  | cons hd tl ih =>
    have h1 : hd.id ≠ id := h hd (List.mem_cons_self hd tl)
    rw [List.map_cons, if_neg h1,
      ih (fun t ht => h t (List.mem_cons_of_mem hd ht))]

/-- C7: updateTask, toggleTask and deleteTask referencing an id that no
task carries are silent no-ops — no exception (the operations are total)
and the task collection is element for element unchanged. -/
theorem missing_id_ops_are_noops (id : String) (u : TaskStore.TaskUpdate)
    (tasks : List Task) (h : ∀ t ∈ tasks, t.id ≠ id) :
    TaskStore.updateTask id u tasks = tasks ∧
    TaskStore.toggleTask id tasks = tasks ∧
    TaskStore.deleteTask id tasks = tasks := by
  have hupd : TaskStore.updateTask id u tasks = tasks :=
    map_ite_eq_self_of_no_match id tasks h
  refine ⟨hupd, ?_, ?_⟩
  · have hfind : tasks.find? (fun t => t.id == id) = none := by
      rw [List.find?_eq_none]
      intro t ht
      simpa using h t ht
    simp [TaskStore.toggleTask, hfind]
  · rw [TaskStore.deleteTask, List.filter_eq_self]
    intro t ht
    simpa using h t ht

/-- Witness for C7 at a singleton collection and an id it does not
contain. -/
theorem missing_id_ops_are_noops_witness :
    (∀ t ∈ [sampleTask], t.id ≠ "zz") ∧
    (TaskStore.updateTask "zz" { title := some "x" } [sampleTask]
        = [sampleTask] ∧
      TaskStore.toggleTask "zz" [sampleTask] = [sampleTask] ∧
      TaskStore.deleteTask "zz" [sampleTask] = [sampleTask]) :=
  ⟨by decide, missing_id_ops_are_noops "zz" { title := some "x" }
    [sampleTask] (by decide)⟩

end Todo

namespace Todo

/-- C6: the aggregate statistics satisfy total = number of tasks,
completed = number of completed tasks, pending = total - completed,
completionRate = round(100 * completed / total) — that is, the floor of
100 * completed / total + 1/2 computed exactly — with 0 for the empty
collection, and completionRate always lies in [0, 100]. -/
theorem calculateTaskStats_spec (tasks : List Task) :
    (StorageStats.calculateTaskStats tasks).total = tasks.length ∧
    (StorageStats.calculateTaskStats tasks).completed
      = tasks.countP (fun t => t.completed) ∧
    (StorageStats.calculateTaskStats tasks).pending
      = tasks.length - tasks.countP (fun t => t.completed) ∧
    (tasks.length = 0 →
      (StorageStats.calculateTaskStats tasks).completionRate = 0) ∧
    (0 < tasks.length →
      (StorageStats.calculateTaskStats tasks).completionRate
        = ⌊(100 * (tasks.countP (fun t => t.completed)) : ℚ)
            / tasks.length + 1/2⌋₊) ∧
    (StorageStats.calculateTaskStats tasks).completionRate ≤ 100 := by
  have hcf : tasks.countP (fun t => t.completed)
      = (tasks.filter (fun t => t.completed)).length :=
    List.countP_eq_length_filter _ _
  have hcn : (tasks.filter (fun t => t.completed)).length ≤ tasks.length :=
    List.length_filter_le _ _
  refine ⟨rfl, by simp [StorageStats.calculateTaskStats, hcf], by simp [StorageStats.calculateTaskStats, hcf], ?_, ?_, ?_⟩
  · intro h0
    simp [StorageStats.calculateTaskStats, h0]
  · intro hn
    have hrate : (StorageStats.calculateTaskStats tasks).completionRate
        = (200 * (tasks.filter (fun t => t.completed)).length + tasks.length)
          / (2 * tasks.length) := by
      simp [StorageStats.calculateTaskStats, hn]
    rw [hrate, hcf]
    have hn0 : ((tasks.length : ℚ)) ≠ 0 := by
      exact_mod_cast Nat.pos_iff_ne_zero.mp hn
    have key : (100 * ((tasks.filter (fun t => t.completed)).length) : ℚ)
          / tasks.length + 1/2
        = ((200 * (tasks.filter (fun t => t.completed)).length + tasks.length
            : ℕ) : ℚ) / ((2 * tasks.length : ℕ) : ℚ) := by
      push_cast
      field_simp
      ring
    rw [key, Nat.floor_div_nat, Nat.floor_natCast]
  · rcases Nat.eq_zero_or_pos tasks.length with h0 | hn
    · simp [StorageStats.calculateTaskStats, h0]
    · have hrate : (StorageStats.calculateTaskStats tasks).completionRate
          = (200 * (tasks.filter (fun t => t.completed)).length + tasks.length)
            / (2 * tasks.length) := by
        simp [StorageStats.calculateTaskStats, hn]
      rw [hrate]
      have h2n : 0 < 2 * tasks.length := by omega
      have : (200 * (tasks.filter (fun t => t.completed)).length + tasks.length)
          / (2 * tasks.length) < 101 := by
        rw [Nat.div_lt_iff_lt_mul h2n]
        omega
      omega

/-- C1 (code bug): saveTasks re-maps every task to a record that has no
subtasks property, so a task saved with subtasks and read back via
getTasks (which returns the stored array unchanged) has lost them: for
the concrete sampleTask, which carries one subtask, the stored record
has an empty subtasks sequence and the round trip does not return the
original task. -/
theorem saveTasks_drops_subtasks :
    sampleTask.subtasks = [sampleSubTask] ∧
    (LocalStorageService.saveTasks "9" "2024-06-01T00:00:00.000Z"
        [sampleTask]).map Task.subtasks = [[]] ∧
    LocalStorageService.saveTasks "9" "2024-06-01T00:00:00.000Z"
        [sampleTask] ≠ [sampleTask] := by
  decide

end Todo

namespace Todo

/-- C8 counterexample: with two distinct categories sharing the name
购物, deleting the one with id 1 leaves the deleted category's name
still listed by getCategoriesWithTaskCount, refuting the claim that the
name is no longer listed after every deletion. -/
theorem deleteCategory_stale_name_counterexample :
    "购物" ∈ (CategoryStore.getCategoriesWithTaskCount
      (CategoryStore.deleteCategory "1"
        [{ id := "1", name := "购物", color := "#EF4444" },
         { id := "2", name := "购物", color := "#111111" }]) []).map
      (fun p => p.1.name) := by
  decide

/-- C8 amended: deleteCategory does not cascade — the task collection is
untouched (every stored category string, stale or not, is preserved),
only the category records with the deleted id are removed and every
other category survives; and provided no other category shares the
deleted category's name, getCategoriesWithTaskCount no longer lists that
name. -/
theorem deleteCategory_no_cascade (id name : String) (s : StoreState)
    (huniq : ∀ c ∈ s.categories, c.name = name → c.id = id) :
    (applyOp s (.deleteCategory id)).tasks = s.tasks ∧
    (∀ c ∈ CategoryStore.deleteCategory id s.categories, c.id ≠ id) ∧
    (∀ c ∈ s.categories, c.id ≠ id →
      c ∈ CategoryStore.deleteCategory id s.categories) ∧
    name ∉ (CategoryStore.getCategoriesWithTaskCount
      (CategoryStore.deleteCategory id s.categories) s.tasks).map
      (fun p => p.1.name) := by
  refine ⟨rfl, ?_, ?_, ?_⟩
  · intro c hc
    have := List.of_mem_filter hc
    simpa using this
  · intro c hc hne
    refine List.mem_filter.mpr ⟨hc, ?_⟩
    simpa using hne
  · intro hmem
    rw [List.mem_map] at hmem
    obtain ⟨p, hp, hpname⟩ := hmem
    rw [CategoryStore.getCategoriesWithTaskCount, List.mem_map] at hp
    obtain ⟨c, hc, hpc⟩ := hp
    have hcid : c.id ≠ id := by
      have := List.of_mem_filter hc
      simpa using this
    have hcmem : c ∈ s.categories := List.mem_of_mem_filter hc
    have hcname : c.name = name := by
      rw [← hpc] at hpname
      simpa using hpname
    exact hcid (huniq c hcmem hcname)

/-- Witness for C8 at the spec scenario: the default category list,
where 购物 appears exactly once with id 4, and one task still carrying
the literal string 购物. -/
theorem deleteCategory_no_cascade_witness :
    (∀ c ∈ LocalStorageService.DEFAULT_CATEGORIES, c.name = "购物" →
      c.id = "4") ∧
    ((applyOp ⟨[sampleTask], LocalStorageService.DEFAULT_CATEGORIES⟩
        (.deleteCategory "4")).tasks = [sampleTask] ∧
      (∀ c ∈ CategoryStore.deleteCategory "4"
          LocalStorageService.DEFAULT_CATEGORIES, c.id ≠ "4") ∧
      (∀ c ∈ LocalStorageService.DEFAULT_CATEGORIES, c.id ≠ "4" →
        c ∈ CategoryStore.deleteCategory "4"
          LocalStorageService.DEFAULT_CATEGORIES) ∧
      "购物" ∉ (CategoryStore.getCategoriesWithTaskCount
        (CategoryStore.deleteCategory "4"
          LocalStorageService.DEFAULT_CATEGORIES) [sampleTask]).map
        (fun p => p.1.name)) :=
  ⟨by decide, deleteCategory_no_cascade "4" "购物"
    ⟨[sampleTask], LocalStorageService.DEFAULT_CATEGORIES⟩ (by decide)⟩

end Todo

namespace Todo

instance (order : SortOrder) : IsTotal Task (DataTransformer.dueLe order) where
  total := by
    intro a b
    cases hx : a.dueDate <;> cases hy : b.dueDate <;> cases order <;>
      simp [DataTransformer.dueLe, DataTransformer.cmpDueDate, hx, hy] <;>
      omega

instance (order : SortOrder) : IsTrans Task (DataTransformer.dueLe order) where
  trans := by
    intro a b c hab hbc
    cases hx : a.dueDate <;> cases hy : b.dueDate <;> cases hz : c.dueDate <;>
      cases order <;>
      simp [DataTransformer.dueLe, DataTransformer.cmpDueDate, hx, hy, hz]
        at hab hbc ⊢ <;>
      omega

/-- C5: sortByDueDate is a permutation of its input in which every task
lacking a due date comes after every task that has one, in both
directions, and the tasks that have due dates appear in chronological
order for asc and reverse chronological order for desc. -/
theorem sortByDueDate_undated_last (tasks : List Task) (order : SortOrder) :
    (DataTransformer.sortByDueDate tasks order).Perm tasks ∧
    (DataTransformer.sortByDueDate tasks order).Pairwise (fun a b =>
      (a.dueDate = none → b.dueDate = none) ∧
      (∀ x y, a.dueDate = some x → b.dueDate = some y →
        (order = .asc → x ≤ y) ∧ (order = .desc → y ≤ x))) := by
  constructor
  · exact List.perm_insertionSort _ tasks
  · have hs := List.sorted_insertionSort (DataTransformer.dueLe order) tasks
    refine List.Pairwise.imp ?_ hs
    intro a b hab
    cases hx : a.dueDate <;> cases hy : b.dueDate <;>
      simp [DataTransformer.dueLe, DataTransformer.cmpDueDate, hx, hy]
        at hab ⊢ <;>
      cases order <;> simp at hab ⊢ <;> try omega

end Todo

namespace Todo

/-- C2: when the import payload carries a tasks or categories property
that is present but not an array, importData throws a format error, and
the whole persisted state — tasks, categories, and also the backup key —
is left exactly as it was: the error is raised before the backup write
and before either collection is overwritten. -/
theorem importData_rejects_nonarray (nowId nowIso : String)
    (st : LocalStorageService.Storage) (data : Json)
    (h : (∃ v, jsGetField data "tasks" = some v ∧ v.isArr = false) ∨
         (∃ v, jsGetField data "categories" = some v ∧ v.isArr = false)) :
    (∃ msg, LocalStorageService.importData nowId nowIso st data
        = .error msg) ∧
    LocalStorageService.importDataRun nowId nowIso st data = st := by
  have himp : ∃ msg,
      LocalStorageService.importData nowId nowIso st data = .error msg := by
    obtain ⟨fields, rfl⟩ : ∃ fields, data = Json.obj fields := by
      rcases h with ⟨v, hv, hva⟩ | ⟨v, hv, hva⟩ <;> cases data <;>
        simp [jsGetField] at hv <;> exact ⟨_, rfl⟩
    rw [LocalStorageService.importData,
      if_neg (by simp [jsFalsy, Json.isObjectType])]
    rcases h with ⟨v, hv, hva⟩ | ⟨v, hv, hva⟩
    · simp only [hv]
      cases v <;> simp [Json.isArr] at hva <;> exact ⟨_, rfl⟩
    · cases htask : jsGetField (Json.obj fields) "tasks" with
      | none =>
        simp only [htask, hv]
        cases v <;> simp [Json.isArr] at hva <;> exact ⟨_, rfl⟩
      | some w =>
        cases w
        case arr taskElems =>
          simp only [htask, hv]
          cases v <;> simp [Json.isArr] at hva <;> exact ⟨_, rfl⟩
        all_goals exact ⟨_, rfl⟩
  obtain ⟨msg, hmsg⟩ := himp
  refine ⟨⟨msg, hmsg⟩, ?_⟩
  rw [LocalStorageService.importDataRun, hmsg]

/-- Witness for C2 at the spec scenario payload, whose tasks property is
the string "not-an-array", against a stored state holding one task. -/
theorem importData_rejects_nonarray_witness :
    (∃ v, jsGetField samplePayload "tasks" = some v ∧ v.isArr = false) ∧
    ((∃ msg, LocalStorageService.importData "9" "t" sampleStorage
        samplePayload = .error msg) ∧
      LocalStorageService.importDataRun "9" "t" sampleStorage samplePayload
        = sampleStorage) :=
  ⟨⟨.str "not-an-array", rfl, rfl⟩,
    importData_rejects_nonarray "9" "t" sampleStorage samplePayload
      (Or.inl ⟨.str "not-an-array", rfl, rfl⟩)⟩

end Todo

namespace Todo

/-- Helper: a string built from a nonempty character list is not the
empty string. -/
theorem mk_ne_empty_of_length_pos {l : List Char} (h : 0 < l.length) :
    (⟨l⟩ : String) ≠ "" := by
  intro heq
  have hd : l = [] := by
    have := congrArg String.data heq
    simpa using this
  rw [hd] at h
  simp at h

/-- C4 counterexample: on a non-object input (here the string "junk")
validateTask does not produce a well-formed record or a placeholder
record — it returns null (none), so the claim that an arbitrary input
always yields a record is refuted. -/
theorem validateTask_nonobject_counterexample :
    DataValidator.validateTask "9" "t" (.str "junk") = none := rfl

/-- C4 amended: validateTask never throws; on a non-object input it
returns null (the designated drop marker for batch validation), and on
every object-shaped input it returns a structurally valid record: id and
title nonempty, missing or blank title replaced by the placeholder
title, missing or invalid priority replaced by medium, missing or
non-string dueDate omitted, completed coerced through Boolean, missing
or empty id replaced by the fresh id, missing createdAt replaced by the
current time. -/
theorem validateTask_normalizes (nowId nowIso : String) (hId : nowId ≠ "")
    (raw : Json) :
    (jsFalsy raw = true ∨ raw.isObjectType = false →
      DataValidator.validateTask nowId nowIso raw = none) ∧
    (jsFalsy raw = false → raw.isObjectType = true →
      ∃ t, DataValidator.validateTask nowId nowIso raw = some t ∧
        t.id ≠ "" ∧
        t.title ≠ "" ∧
        (jsGetField raw "title" = none → t.title = "未命名任务") ∧
        (∀ s, jsGetField raw "title" = some (.str s) →
          trimChars s.data = [] → t.title = "未命名任务") ∧
        (jsGetField raw "priority" = none → t.priority = .medium) ∧
        (∀ v, jsGetField raw "priority" = some v → v ≠ .str "low" →
          v ≠ .str "medium" → v ≠ .str "high" → t.priority = .medium) ∧
        (jsGetField raw "dueDate" = none → t.dueDate = none) ∧
        (∀ v, jsGetField raw "dueDate" = some v → (∀ s, v ≠ .str s) →
          t.dueDate = none) ∧
        (jsGetField raw "completed" = none → t.completed = false) ∧
        (∀ v, jsGetField raw "completed" = some v →
          t.completed = !jsFalsy v) ∧
        (jsGetField raw "id" = none → t.id = nowId) ∧
        (jsGetField raw "id" = some (.str "") → t.id = nowId) ∧
        (jsGetField raw "createdAt" = none → t.createdAt = nowIso)) := by
  constructor
  · intro hcase
    rw [DataValidator.validateTask, if_pos]
    rcases hcase with h1 | h1 <;> simp [h1]
  · intro hf ho
    rw [DataValidator.validateTask, if_neg (by simp [hf, ho])]
    refine ⟨_, rfl, ?_, ?_, ?_, ?_, ?_, ?_, ?_, ?_, ?_, ?_, ?_, ?_, ?_⟩
    · -- id nonempty
      dsimp only
      cases hid : jsGetField raw "id" with
      | none => simpa using hId
      | some v =>
        cases v <;> simp [hId]
        case str s =>
          split
          · next hlen =>
            intro heq
            rw [heq] at hlen
            simp at hlen
          · exact hId
    · -- title nonempty
      dsimp only
      cases hti : jsGetField raw "title" with
      | none => decide
      | some v =>
        cases v
        case str s =>
          dsimp only
          by_cases hlen : (trimChars s.data).length > 0
          · rw [if_pos hlen]
            exact mk_ne_empty_of_length_pos hlen
          · rw [if_neg hlen]
            decide
        all_goals simp
    · -- missing title
      intro h
      simp [h]
    · -- blank title
      intro s hs htrim
      simp [hs, htrim]
    · -- missing priority
      intro h
      simp [h]
    · -- invalid priority
      intro v hv h1 h2 h3
      cases v <;> simp [hv]
      case str s =>
        split <;> simp_all
    · -- missing dueDate
      intro h
      simp [h]
    · -- non-string dueDate
      intro v hv hns
      cases v <;> first
        | exact absurd rfl (hns _)
        | simp [hv]
    · -- missing completed
      intro h
      simp [h]
    · -- completed coercion
      intro v hv
      simp [hv]
    · -- missing id
      intro h
      simp [h]
    · -- empty id
      intro h
      simp [h]
    · -- missing createdAt
      intro h
      simp [h]

/-- Witness for C4 at the malformed object-shaped record sampleRaw. -/
theorem validateTask_normalizes_witness :
    ("9" : String) ≠ "" ∧
    ((jsFalsy sampleRaw = true ∨ sampleRaw.isObjectType = false →
      DataValidator.validateTask "9" "t" sampleRaw = none) ∧
    (jsFalsy sampleRaw = false → sampleRaw.isObjectType = true →
      ∃ t, DataValidator.validateTask "9" "t" sampleRaw = some t ∧
        t.id ≠ "" ∧
        t.title ≠ "" ∧
        (jsGetField sampleRaw "title" = none → t.title = "未命名任务") ∧
        (∀ s, jsGetField sampleRaw "title" = some (.str s) →
          trimChars s.data = [] → t.title = "未命名任务") ∧
        (jsGetField sampleRaw "priority" = none → t.priority = .medium) ∧
        (∀ v, jsGetField sampleRaw "priority" = some v → v ≠ .str "low" →
          v ≠ .str "medium" → v ≠ .str "high" → t.priority = .medium) ∧
        (jsGetField sampleRaw "dueDate" = none → t.dueDate = none) ∧
        (∀ v, jsGetField sampleRaw "dueDate" = some v → (∀ s, v ≠ .str s) →
          t.dueDate = none) ∧
        (jsGetField sampleRaw "completed" = none → t.completed = false) ∧
        (∀ v, jsGetField sampleRaw "completed" = some v →
          t.completed = !jsFalsy v) ∧
        (jsGetField sampleRaw "id" = none → t.id = "9") ∧
        (jsGetField sampleRaw "id" = some (.str "") → t.id = "9") ∧
        (jsGetField sampleRaw "createdAt" = none → t.createdAt = "t"))) :=
  ⟨by decide, validateTask_normalizes "9" "t" (by decide) sampleRaw⟩

end Todo

namespace Todo

/-- Helper: mapping a function that preserves a key over a list
preserves the list of keys. -/
theorem map_preserves_keys {α β : Type} (key : α → β) {f : α → α}
    (hf : ∀ a, key (f a) = key a) (l : List α) :
    (l.map f).map key = l.map key := by
  induction l with
  | nil => rfl
  | cons hd tl ih => simp [hf, ih]

/-- Helper: the keys of a filtered list are a sublist of the keys. -/
theorem filter_keys_sublist {α β : Type} (key : α → β) (p : α → Bool)
    (l : List α) : ((l.filter p).map key).Sublist (l.map key) :=
  (List.filter_sublist l).map key

/-- Helper: one guarded operation preserves the id-uniqueness
invariant. -/
theorem opOk_preserves_idsNodup (s : StoreState) (op : Op)
    (hInv : idsNodup s) (hok : opOk s op = true) :
    idsNodup (applyOp s op) := by
  obtain ⟨hT, hC⟩ := hInv
  cases op with
  | addTask newId nowIso data =>
    simp [opOk] at hok
    refine ⟨?_, hC⟩
    have heq : taskIds (applyOp s (.addTask newId nowIso data))
        = taskIds s ++ [newId] := by
      simp [applyOp, TaskStore.addTask, taskIds]
    rw [heq, List.nodup_append]
    exact ⟨hT, List.nodup_singleton _, by simpa using hok⟩
  | updateTask id u =>
    simp only [opOk, Option.isNone_iff_eq_none] at hok
    refine ⟨?_, hC⟩
    have heq : taskIds (applyOp s (.updateTask id u)) = taskIds s := by
      simp only [applyOp, taskIds, TaskStore.updateTask]
      exact map_preserves_keys Task.id
        (fun t => by
          by_cases h : t.id = id <;>
            simp [h, TaskStore.applyUpdate, hok]) s.tasks
    rw [heq]; exact hT
  | deleteTask id =>
    exact ⟨((filter_keys_sublist Task.id _ s.tasks).nodup hT), hC⟩
  | toggleTask id =>
    refine ⟨?_, hC⟩
    have heq : taskIds (applyOp s (.toggleTask id)) = taskIds s := by
      simp only [applyOp, taskIds, TaskStore.toggleTask]
      cases hfind : s.tasks.find? (fun t => t.id == id) with
      | none => rfl
      | some t =>
        simp only [TaskStore.updateTask]
        exact map_preserves_keys Task.id
          (fun t2 => by
            by_cases h : t2.id = id <;>
              simp [h, TaskStore.applyUpdate]) s.tasks
    rw [heq]; exact hT
  | toggleAllTasks completed =>
    refine ⟨?_, hC⟩
    have heq : taskIds (applyOp s (.toggleAllTasks completed)) = taskIds s := by
      simp only [applyOp, taskIds, TaskStore.toggleAllTasks]
      exact map_preserves_keys
        (f := fun t => { t with completed := completed }) Task.id
        (fun t => rfl) s.tasks
    rw [heq]; exact hT
  | clearCompleted =>
    exact ⟨((filter_keys_sublist Task.id _ s.tasks).nodup hT), hC⟩
  | deleteCompleted =>
    exact ⟨((filter_keys_sublist Task.id _ s.tasks).nodup hT), hC⟩
  | bulkUpdateTasks ids u =>
    simp only [opOk, Option.isNone_iff_eq_none] at hok
    refine ⟨?_, hC⟩
    have heq : taskIds (applyOp s (.bulkUpdateTasks ids u)) = taskIds s := by
      simp only [applyOp, taskIds, TaskStore.bulkUpdateTasks]
      exact map_preserves_keys Task.id
        (fun t => by
          by_cases h : t.id ∈ ids <;>
            simp [h, TaskStore.applyUpdate, hok]) s.tasks
    rw [heq]; exact hT
  | bulkDeleteTasks ids =>
    exact ⟨((filter_keys_sublist Task.id _ s.tasks).nodup hT), hC⟩
  | addCategory newId data =>
    simp [opOk] at hok
    refine ⟨hT, ?_⟩
    have heq : categoryIds (applyOp s (.addCategory newId data))
        = categoryIds s ++ [newId] := by
      simp [applyOp, CategoryStore.addCategory, categoryIds]
    rw [heq, List.nodup_append]
    exact ⟨hC, List.nodup_singleton _, by simpa using hok⟩
  | updateCategory id u =>
    simp only [opOk, Option.isNone_iff_eq_none] at hok
    refine ⟨hT, ?_⟩
    have heq : categoryIds (applyOp s (.updateCategory id u))
        = categoryIds s := by
      simp only [applyOp, categoryIds, CategoryStore.updateCategory]
      exact map_preserves_keys Category.id
        (fun c => by
          by_cases h : c.id = id <;>
            simp [h, CategoryStore.applyCategoryUpdate, hok]) s.categories
    rw [heq]; exact hC
  | deleteCategory id =>
    exact ⟨hT, ((filter_keys_sublist Category.id _ s.categories).nodup hC)⟩
  | bulkAddCategories news =>
    simp [opOk] at hok
    obtain ⟨hnd, hfresh⟩ := hok
    refine ⟨hT, ?_⟩
    have heq : categoryIds (applyOp s (.bulkAddCategories news))
        = categoryIds s ++ news.map Prod.fst := by
      simp [applyOp, CategoryStore.bulkAddCategories, categoryIds]
    rw [heq, List.nodup_append]
    refine ⟨hC, hnd, ?_⟩
    intro a ha hb
    rw [List.mem_map] at hb
    obtain ⟨p, hp, rfl⟩ := hb
    exact hfresh p.1 p.2 hp ha
  | bulkUpdateCategories ids u =>
    simp only [opOk, Option.isNone_iff_eq_none] at hok
    refine ⟨hT, ?_⟩
    have heq : categoryIds (applyOp s (.bulkUpdateCategories ids u))
        = categoryIds s := by
      simp only [applyOp, categoryIds, CategoryStore.bulkUpdateCategories]
      exact map_preserves_keys Category.id
        (fun c => by
          by_cases h : c.id ∈ ids <;>
            simp [h, CategoryStore.applyCategoryUpdate, hok]) s.categories
    rw [heq]; exact hC
  | bulkDeleteCategories ids =>
    exact ⟨hT, ((filter_keys_sublist Category.id _ s.categories).nodup hC)⟩

/-- Helper: a guarded run preserves the id-uniqueness invariant. -/
theorem okRun_preserves_idsNodup (ops : List Op) :
    ∀ s, idsNodup s → okRun s ops = true → idsNodup (runOps s ops) := by
  induction ops with
  | nil => exact fun s h _ => h
  | cons op rest ih =>
    intro s h hok
    rw [okRun, Bool.and_eq_true] at hok
    exact ih (applyOp s op) (opOk_preserves_idsNodup s op h hok.1) hok.2

end Todo

namespace Todo

/-- C3 counterexample: starting from the empty state, adding two tasks
and then calling bulkUpdateTasks with an update that carries an id
property makes both task ids equal, so the uniqueness invariant is not
preserved by arbitrary operation sequences. -/
theorem store_ids_duplicate_counterexample :
    ¬ idsNodup (runOps initialState
      [.addTask "1" "t0" sampleTaskData,
       .addTask "2" "t0" sampleTaskData,
       .bulkUpdateTasks ["1", "2"] { id := some "9" }]) :=
  fun h => absurd h.1 (by decide)

/-- C3 amended: in every state reachable from the empty/default state by
a sequence of store operations in which partial updates never carry an
id property and every generated id is fresh for its collection (pairwise
distinct within a bulk add), the task ids are pairwise distinct and the
category ids are pairwise distinct. -/
theorem store_ids_nodup (ops : List Op)
    (hok : okRun initialState ops = true) :
    idsNodup (runOps initialState ops) :=
  okRun_preserves_idsNodup ops initialState
    (by simp [idsNodup, taskIds, categoryIds, initialState]) hok

/-- Witness for C3 at a concrete guarded run exercising task and
category operations. -/
theorem store_ids_nodup_witness :
    okRun initialState
      [.addTask "1" "t0" sampleTaskData,
       .addTask "2" "t1" sampleTaskData,
       .addCategory "c1" { name := "工作", color := "#3B82F6" },
       .updateTask "1" { title := some "改名" },
       .toggleTask "2",
       .deleteTask "x",
       .bulkDeleteTasks ["2"]] = true ∧
    idsNodup (runOps initialState
      [.addTask "1" "t0" sampleTaskData,
       .addTask "2" "t1" sampleTaskData,
       .addCategory "c1" { name := "工作", color := "#3B82F6" },
       .updateTask "1" { title := some "改名" },
       .toggleTask "2",
       .deleteTask "x",
       .bulkDeleteTasks ["2"]]) :=
  ⟨by decide, store_ids_nodup
    [.addTask "1" "t0" sampleTaskData,
     .addTask "2" "t1" sampleTaskData,
     .addCategory "c1" { name := "工作", color := "#3B82F6" },
     .updateTask "1" { title := some "改名" },
     .toggleTask "2",
     .deleteTask "x",
     .bulkDeleteTasks ["2"]] (by decide)⟩

end Todo
